import Mathlib

/-!
Verification of the transcriber pipeline (`src/app.py`).

The file embeds the logic of `app.py` shallowly:

* `extract_video_id` models the two-pattern `re.search` loop (lines 9-22).
  Python's `re.search` returns the leftmost match; at each position the
  alternation `(?:v=|\/)` tries `v=` then `/` (their first characters differ,
  so the order is immaterial), the group `([0-9A-Za-z_-]{11})` takes exactly
  eleven identifier characters, and the trailing `.*` always succeeds.
* `get_transcript` (lines 24-29) takes the caption-retrieval dependency as an
  explicit function returning `Except`; a raised exception is `.error`.
* `correct_text_gpt` (lines 31-55) and `translate_text` (lines 57-69) return
  the produced text together with the list of messages passed to `st.error`.
* `main_events` (lines 113-189) replays the button handler of `main`,
  recording every rendered panel (`st.subheader`/`st.write` pair) and error
  message in order.  CSS/font/theme handling has no effect on the pipeline
  and is not modelled.
-/

/-- A character of the identifier class `[0-9A-Za-z_-]` of both regexes. -/
def idChar (c : Char) : Bool :=
  (decide ('0' ≤ c) && decide (c ≤ '9')) ||
  (decide ('A' ≤ c) && decide (c ≤ 'Z')) ||
  (decide ('a' ≤ c) && decide (c ≤ 'z')) ||
  c == '_' || c == '-'

/-- `takeId n cs` models the regex group `([0-9A-Za-z_-]{n})`: it captures
exactly `n` identifier characters from the front of `cs`, failing when `cs`
is shorter or a non-identifier character occurs among the first `n`. -/
def takeId : Nat → List Char → Option (List Char)
  | 0, _ => some []
  | _ + 1, [] => none
  | n + 1, c :: rest =>
    if idChar c then Option.map (fun g => c :: g) (takeId n rest) else none

/-- One attempt of pattern `(?:v=|\/)([0-9A-Za-z_-]{11}).*` at a fixed
position (the trailing `.*` always matches, so it is dropped). -/
def match1At (cs : List Char) : Option (List Char) :=
  match cs with
  | 'v' :: '=' :: rest => takeId 11 rest
  | '/' :: rest => takeId 11 rest
  | _ => none

/-- `re.search` with the first pattern: leftmost position wins. -/
def searchP1 : List Char → Option (List Char)
  | [] => none
  | c :: rest =>
    match match1At (c :: rest) with
    | some g => some g
    | none => searchP1 rest

/-- One attempt of pattern `youtu\.be\/([0-9A-Za-z_-]{11})` at a fixed
position. -/
def match2At (cs : List Char) : Option (List Char) :=
  match cs with
  | 'y' :: 'o' :: 'u' :: 't' :: 'u' :: '.' :: 'b' :: 'e' :: '/' :: rest =>
    takeId 11 rest
  | _ => none

/-- `re.search` with the second pattern. -/
def searchP2 : List Char → Option (List Char)
  | [] => none
  | c :: rest =>
    match match2At (c :: rest) with
    | some g => some g
    | none => searchP2 rest

/-- `extract_video_id` (app.py lines 9-22): try the two patterns in order and
return the first capture group, or `none` when neither matches. -/
def extract_video_id (url : String) : Option String :=
  match searchP1 url.data with
  | some g => some (String.mk g)
  | none =>
    match searchP2 url.data with
    | some g => some (String.mk g)
    | none => none

/-- Variant of `extract_video_id` that only uses the first pattern, for the
dead-code claim about the `youtu.be` pattern. -/
def extract_video_id_first_only (url : String) : Option String :=
  match searchP1 url.data with
  | some g => some (String.mk g)
  | none => none

/-- A caption entry as consumed by `get_transcript`; only the `"text"` field
is ever read (app.py line 29). -/
structure CaptionEntry where
  text : String
deriving DecidableEq, Repr

/-- `get_transcript` (app.py lines 24-29): call the caption-retrieval
dependency and join the entry texts with single spaces (`" ".join`).
The dependency is passed explicitly; a raised exception is `.error`. -/
def get_transcript (api : String → Except String (List CaptionEntry))
    (videoId : String) : Except String String :=
  match api videoId with
  | .ok entries => .ok (String.intercalate " " (entries.map (fun e => e.text)))
  | .error e => .error e

/-- Configuration visible to `correct_text_gpt`: the `OPENAI_API_KEY`
environment variable (`none` when unset), whether the key is present in
`st.secrets`, and the chat-completion dependency mapping the prompt to the
stripped-off content source or to a raised exception. -/
structure OpenAIEnv where
  apiKeyEnv : Option String
  apiKeyInSecrets : Bool
  chatCompletion : String → Except String String

/-- Python truthiness of `os.getenv("OPENAI_API_KEY")`: `None` and the empty
string are falsy. -/
def envKeyTruthy (env : OpenAIEnv) : Bool :=
  match env.apiKeyEnv with
  | none => false
  | some s => !s.isEmpty

/-- The fixed instruction prompt built at app.py lines 41-44. -/
def correctPrompt (text : String) : String :=
  "Please correct the following text for grammar, punctuation, clarity, and style:\n\n"
    ++ text ++ "\n\nCorrected text:"

/-- Message shown when no credential is found (app.py line 37). -/
def keyMissingMsg : String :=
  "OpenAI API key not found. Please set the OPENAI_API_KEY environment variable or in Streamlit secrets."

/-- `correct_text_gpt` (app.py lines 31-55).  Returns the resulting text and
the list of `st.error` messages emitted.  The `try` block is modelled by the
`Except` result of the dependency; `.strip()` is `String.trim`. -/
def correct_text_gpt (env : OpenAIEnv) (text : String) : String × List String :=
  if !envKeyTruthy env && !env.apiKeyInSecrets then
    (text, [keyMissingMsg])
  else
    match env.chatCompletion (correctPrompt text) with
    | .ok content => (content.trim, [])
    | .error e => (text, ["Error during text correction: " ++ e])

/-- `translate_text` (app.py lines 57-69).  The whole `try` block (client
construction, call, field access) is modelled by the dependency's `Except`
result; returns the resulting text and the `st.error` messages emitted. -/
def translate_text (dep : String → String → Except String String)
    (text : String) (targetLangCode : String) : String × List String :=
  match dep text targetLangCode with
  | .ok tr => (tr, [])
  | .error e => (text, ["Error during translation: " ++ e])

/-- The `lang_map` dictionary of app.py lines 142-150, as a partial lookup. -/
def lang_map (name : String) : Option String :=
  if name = "English" then some "en"
  else if name = "Spanish" then some "es"
  else if name = "French" then some "fr"
  else if name = "German" then some "de"
  else if name = "Italian" then some "it"
  else if name = "Portuguese" then some "pt"
  else if name = "Turkish" then some "tr"
  else none

/-- `lang_map.get(target_language, "en")` at app.py line 185. -/
def lang_map_get (name : String) : String :=
  (lang_map name).getD "en"

/-- One observable UI action of the button handler: an `st.error` call or a
rendered panel (an `st.subheader` followed by `st.write`). -/
inductive UIEvent where
  | errorMsg (msg : String)
  | panel (title : String) (body : String)
deriving DecidableEq, Repr

/-- The inputs of one run of `main` (app.py lines 113-189): the button state,
the URL text input, the selected target language, and the three external
dependencies. -/
structure World where
  buttonPressed : Bool
  url : String
  targetLanguage : String
  openai : OpenAIEnv
  translateDep : String → String → Except String String
  fetchDep : String → Except String (List CaptionEntry)

/-- The button handler of `main` (app.py lines 158-189), replayed as the
ordered list of UI events it produces. -/
def main_events (w : World) : List UIEvent :=
  if !w.buttonPressed then []
  else if w.url.isEmpty then [UIEvent.errorMsg "Please enter a YouTube URL."]
  else
    match extract_video_id w.url with
    | none => [UIEvent.errorMsg "Invalid YouTube URL. Please check and try again."]
    | some videoId =>
      match get_transcript w.fetchDep videoId with
      | .error e => [UIEvent.errorMsg ("Error fetching subtitles: " ++ e)]
      | .ok originalText =>
        let corr := correct_text_gpt w.openai originalText
        let targetCode := lang_map_get w.targetLanguage
        let tr := translate_text w.translateDep corr.1 targetCode
        UIEvent.panel "Original Transcript" originalText
          :: (corr.2.map UIEvent.errorMsg
            ++ UIEvent.panel "Corrected Transcript" corr.1
            :: (tr.2.map UIEvent.errorMsg
              ++ [UIEvent.panel ("Translated Text (" ++ w.targetLanguage ++ ")") tr.1]))

/-! ### Spec-side predicates about URLs -/

/-- Spec-side description of "the URL contains `v=` or `/` immediately
followed by (at least) 11 identifier characters", stated over positions of
the character list, independently of the search functions. -/
def specIdOcc (cs : List Char) : Prop :=
  ∃ i < cs.length,
    (((cs.drop i).take 2 = ['v', '='] ∧ 11 + (i + 2) ≤ cs.length ∧
        ((cs.drop (i + 2)).take 11).all idChar = true) ∨
     ((cs.drop i).take 1 = ['/'] ∧ 11 + (i + 1) ≤ cs.length ∧
        ((cs.drop (i + 1)).take 11).all idChar = true))

instance (cs : List Char) : Decidable (specIdOcc cs) := by
  unfold specIdOcc
  infer_instance

/-- Spec-side side condition of the amended claim C2: some position strictly
before `n` (i.e. inside the context preceding the intended marker) has `v=`
or `/` immediately followed by 11 identifier characters, and so preempts the
leftmost regex match. -/
def preemptingOccBefore (cs : List Char) (n : Nat) : Prop :=
  ∃ i < n,
    (((cs.drop i).take 2 = ['v', '='] ∧ 11 + (i + 2) ≤ cs.length ∧
        ((cs.drop (i + 2)).take 11).all idChar = true) ∨
     ((cs.drop i).take 1 = ['/'] ∧ 11 + (i + 1) ≤ cs.length ∧
        ((cs.drop (i + 1)).take 11).all idChar = true))

instance (cs : List Char) (n : Nat) : Decidable (preemptingOccBefore cs n) := by
  unfold preemptingOccBefore
  infer_instance

/-- The claim's reading of "11-character identifier segment": a maximal run
of exactly 11 identifier characters starting right after `v=` or `/`
(`takeWhile` stops at the first non-identifier character, so the run it
returns is maximal). -/
def hasMax11Seg (cs : List Char) : Bool :=
  (List.range cs.length).any (fun i =>
    match cs.drop i with
    | 'v' :: '=' :: rest => ((rest.takeWhile idChar).length == 11)
    | '/' :: rest => ((rest.takeWhile idChar).length == 11)
    | _ => false)

/-- Spec-side flattening: each entry's text, in order, separated by a single
space. -/
def joinWithSpaces : List String → String
  | [] => ""
  | [t] => t
  | t :: t' :: rest => t ++ " " ++ joinWithSpaces (t' :: rest)

/-- The single error message of an aborting run (invalid URL or fetch
failure); only meaningful under claim C4's hypothesis. -/
def abortMsg (w : World) : String :=
  match extract_video_id w.url with
  | none => "Invalid YouTube URL. Please check and try again."
  | some vid =>
    match w.fetchDep vid with
    | .error e => "Error fetching subtitles: " ++ e
    | .ok _ => ""

/-! ### Lemmas about the pattern-matching core -/

theorem takeId_append (l rest : List Char) (hall : l.all idChar = true) :
    takeId l.length (l ++ rest) = some l := by
  induction l with
  | nil => rfl
  | cons c l ih =>
    simp only [List.all_cons, Bool.and_eq_true] at hall
    show (if idChar c then Option.map (fun g => c :: g) (takeId l.length (l ++ rest))
      else none) = some (c :: l)
    simp only [hall.1, if_true, ih hall.2, Option.map_some']

theorem takeId_some {n : Nat} {cs g : List Char} (h : takeId n cs = some g) :
    g.length = n ∧ g.all idChar = true ∧ ∃ tail, cs = g ++ tail := by
  induction n generalizing cs g with
  | zero =>
    simp only [takeId, Option.some.injEq] at h
    exact ⟨by simp [← h], by simp [← h], cs, by simp [← h]⟩
  | succ n ih =>
    match cs with
    | [] => exact absurd h (by simp [takeId])
    | c :: rest =>
      simp only [takeId] at h
      by_cases hc : idChar c
      · simp only [hc, if_true] at h
        match hg : takeId n rest with
        | none => rw [hg] at h; simp at h
        | some g' =>
          rw [hg] at h
          simp only [Option.map_some', Option.some.injEq] at h
          obtain ⟨hl, ha, tail, ht⟩ := ih hg
          refine ⟨?_, ?_, tail, ?_⟩
          · simp [← h, hl]
          · simp [← h, List.all_cons, hc, ha]
          · simp [← h, ht]
      · simp [hc] at h

theorem searchP1_cons_none {c : Char} {rest : List Char}
    (h : match1At (c :: rest) = none) : searchP1 (c :: rest) = searchP1 rest := by
  simp [searchP1, h]

theorem searchP1_cons_some {c : Char} {rest g : List Char}
    (h : match1At (c :: rest) = some g) : searchP1 (c :: rest) = some g := by
  simp [searchP1, h]

theorem searchP1_some {cs g : List Char} (h : searchP1 cs = some g) :
    ∃ pre suf, cs = pre ++ suf ∧ match1At suf = some g := by
  induction cs with
  | nil => simp [searchP1] at h
  | cons c rest ih =>
    match hm : match1At (c :: rest) with
    | some g' =>
      rw [searchP1_cons_some hm] at h
      exact ⟨[], c :: rest, by simp, by rw [hm, h]⟩
    | none =>
      rw [searchP1_cons_none hm] at h
      obtain ⟨pre, suf, heq, hsuf⟩ := ih h
      exact ⟨c :: pre, suf, by simp [heq], hsuf⟩

theorem match1At_some {suf g : List Char} (h : match1At suf = some g) :
    (∃ rest, suf = 'v' :: '=' :: rest ∧ takeId 11 rest = some g) ∨
    (∃ rest, suf = '/' :: rest ∧ takeId 11 rest = some g) := by
  unfold match1At at h
  split at h
  · exact Or.inl ⟨_, rfl, h⟩
  · exact Or.inr ⟨_, rfl, h⟩
  · exact absurd h (by simp)

theorem match2At_some {suf g : List Char} (h : match2At suf = some g) :
    ∃ rest, suf = 'y' :: 'o' :: 'u' :: 't' :: 'u' :: '.' :: 'b' :: 'e' :: '/' :: rest ∧
      takeId 11 rest = some g := by
  unfold match2At at h
  split at h
  · exact ⟨_, rfl, h⟩
  · exact absurd h (by simp)

theorem searchP2_some {cs g : List Char} (h : searchP2 cs = some g) :
    ∃ pre suf, cs = pre ++ suf ∧ match2At suf = some g := by
  induction cs with
  | nil => simp [searchP2] at h
  | cons c rest ih =>
    match hm : match2At (c :: rest) with
    | some g' =>
      simp only [searchP2, hm] at h
      exact ⟨[], c :: rest, by simp, by rw [hm, h]⟩
    | none =>
      simp only [searchP2, hm] at h
      obtain ⟨pre, suf, heq, hsuf⟩ := ih h
      exact ⟨c :: pre, suf, by simp [heq], hsuf⟩

theorem searchP1_append_ne_none {suf g : List Char} (pre : List Char)
    (h : match1At suf = some g) : searchP1 (pre ++ suf) ≠ none := by
  induction pre with
  | nil =>
    match suf, h with
    | c :: rest, h => simp [searchP1_cons_some h]
  | cons c pre ih =>
    match hm : match1At (c :: (pre ++ suf)) with
    | some g' => simp [searchP1_cons_some hm]
    | none => rw [List.cons_append, searchP1_cons_none hm]; exact ih

/-- The `youtu.be` pattern only matches where the first pattern's `/`
alternative also matches, so a failed first search forces a failed second. -/
theorem searchP2_none_of_searchP1_none {cs : List Char}
    (h : searchP1 cs = none) : searchP2 cs = none := by
  match h2 : searchP2 cs with
  | none => rfl
  | some g =>
    obtain ⟨pre, suf, heq, hsuf⟩ := searchP2_some h2
    obtain ⟨rest, hsuf_eq, htake⟩ := match2At_some hsuf
    have h1 : match1At ('/' :: rest) = some g := htake
    have : searchP1 cs ≠ none := by
      rw [heq, hsuf_eq,
        show ('y' :: 'o' :: 'u' :: 't' :: 'u' :: '.' :: 'b' :: 'e' :: '/' :: rest)
          = ['y', 'o', 'u', 't', 'u', '.', 'b', 'e'] ++ ('/' :: rest) from rfl,
        ← List.append_assoc]
      exact searchP1_append_ne_none _ h1
    exact absurd h this

theorem specIdOcc_of_searchP1 {cs g : List Char} (h : searchP1 cs = some g) :
    specIdOcc cs := by
  obtain ⟨pre, suf, heq, hm⟩ := searchP1_some h
  rcases match1At_some hm with ⟨rest, hsuf, htake⟩ | ⟨rest, hsuf, htake⟩ <;>
    obtain ⟨hlen, hall, tail, hrest⟩ := takeId_some htake <;>
    subst hsuf <;> subst hrest <;> subst heq
  · refine ⟨pre.length, by simp, Or.inl ⟨?_, ?_, ?_⟩⟩
    · rw [List.drop_left]
      rfl
    · simp only [List.length_append, List.length_cons, List.length_append, hlen]
      omega
    · have hdrop : (pre ++ 'v' :: '=' :: (g ++ tail)).drop (pre.length + 2)
          = g ++ tail := by
        rw [show pre.length + 2 = pre.length + 2 from rfl, ← List.drop_drop,
          List.drop_left]
        rfl
      rw [hdrop, List.take_left' hlen]
      exact hall
  · refine ⟨pre.length, by simp, Or.inr ⟨?_, ?_, ?_⟩⟩
    · rw [List.drop_left]
      rfl
    · simp only [List.length_append, List.length_cons, List.length_append, hlen]
      omega
    · have hdrop : (pre ++ '/' :: (g ++ tail)).drop (pre.length + 1)
          = g ++ tail := by
        rw [← List.drop_drop, List.drop_left]
        rfl
      rw [hdrop, List.take_left' hlen]
      exact hall

/-! ### Claims about the URL parser -/

/-- C9: the `youtu.be` pattern is dead code — for every URL,
`extract_video_id` with both patterns agrees with the variant that only
tries the first pattern, because any `youtu.be/<id>` occurrence already
contains a `/` followed by 11 identifier characters. -/
theorem C9_second_pattern_subsumed (url : String) :
    extract_video_id url = extract_video_id_first_only url := by
  unfold extract_video_id extract_video_id_first_only
  cases h : searchP1 url.data with
  | some g => rfl
  | none => rw [searchP2_none_of_searchP1_none h]

/-- C3 (amended): whenever the URL contains no `v=` or `/` immediately
followed by at least 11 identifier characters, `extract_video_id` returns
`none` (absent, not an error). -/
theorem C3_no_id_returns_none (url : String) (h : ¬ specIdOcc url.data) :
    extract_video_id url = none := by
  unfold extract_video_id
  cases h1 : searchP1 url.data with
  | some g => exact absurd (specIdOcc_of_searchP1 h1) h
  | none => rw [searchP2_none_of_searchP1_none h1]

/-- Witness for C3: a URL with no identifier occurrence maps to `none`. -/
theorem C3_no_id_returns_none_witness : extract_video_id "hello, world!" = none :=
  C3_no_id_returns_none "hello, world!" (by decide)

/-- C3, as stated, is false: the claim counts only *maximal* runs of
*exactly* 11 identifier characters, but the regex is satisfied by the first
11 characters of a longer run.  `"/abcdefghijkl"` has a maximal run of 12,
hence no 11-character segment in the claim's sense, yet `extract_video_id`
returns `some "abcdefghijk"` instead of `none`. -/
theorem C3_maximal_run_counterexample :
    hasMax11Seg "/abcdefghijkl".data = false ∧
    extract_video_id "/abcdefghijkl" = some "abcdefghijk" := by
  constructor
  · decide
  · rfl

theorem extract_of_searchP1 {url : String} {g : List Char}
    (h : searchP1 url.data = some g) : extract_video_id url = some (String.mk g) := by
  unfold extract_video_id
  rw [h]

/-- C2, as stated, is false: `re.search` returns the *leftmost* match, so a
`...` context containing an earlier `/` (or `v=`) followed by 11 identifier
characters wins over the `watch?v=` identifier.  The URL below has the
claimed form `...watch?v=dQw4w9WgXcQ` but yields `"aaaaaaaaaaa"`. -/
theorem C2_leftmost_counterexample :
    extract_video_id "/aaaaaaaaaaawatch?v=dQw4w9WgXcQ" = some "aaaaaaaaaaa" ∧
    some "aaaaaaaaaaa" ≠ some "dQw4w9WgXcQ" := by
  constructor
  · rfl
  · decide

theorem occAt_of_match1At_drop {cs g : List Char} {i : Nat}
    (h : match1At (cs.drop i) = some g) :
    ((cs.drop i).take 2 = ['v', '='] ∧ 11 + (i + 2) ≤ cs.length ∧
        ((cs.drop (i + 2)).take 11).all idChar = true) ∨
    ((cs.drop i).take 1 = ['/'] ∧ 11 + (i + 1) ≤ cs.length ∧
        ((cs.drop (i + 1)).take 11).all idChar = true) := by
  rcases match1At_some h with ⟨rest, hsuf, htake⟩ | ⟨rest, hsuf, htake⟩ <;>
    obtain ⟨hlen, hall, tail, hrest⟩ := takeId_some htake <;> subst hrest
  · refine Or.inl ⟨by rw [hsuf]; rfl, ?_, ?_⟩
    · have hlength := congrArg List.length hsuf
      simp only [List.length_drop, List.length_cons, List.length_append, hlen]
        at hlength
      omega
    · have h2 : cs.drop (i + 2) = g ++ tail := by
        rw [← List.drop_drop, hsuf]
        rfl
      rw [h2, List.take_left' hlen]
      exact hall
  · refine Or.inr ⟨by rw [hsuf]; rfl, ?_, ?_⟩
    · have hlength := congrArg List.length hsuf
      simp only [List.length_drop, List.length_cons, List.length_append, hlen]
        at hlength
      omega
    · have h2 : cs.drop (i + 1) = g ++ tail := by
        rw [← List.drop_drop, hsuf]
        rfl
      rw [h2, List.take_left' hlen]
      exact hall

theorem searchP1_of_first_match {g : List Char} (n : Nat) (cs : List Char)
    (hnone : ∀ i, i < n → match1At (cs.drop i) = none)
    (h : match1At (cs.drop n) = some g) : searchP1 cs = some g := by
  induction n generalizing cs with
  | zero =>
    match cs, h with
    | [], h => exact absurd h (by simp [match1At])
    | c :: rest, h => exact searchP1_cons_some h
  | succ n ih =>
    match cs, h with
    | [], h => exact absurd h (by simp [match1At, List.drop_nil])
    | c :: rest, h =>
      rw [searchP1_cons_none (hnone 0 (Nat.succ_pos n))]
      exact ih rest (fun i hi => hnone (i + 1) (Nat.succ_lt_succ hi)) h

/-- C2 (amended): for every URL in which `v=` or `/` is immediately followed
by an 11-character identifier — which covers both claimed shapes
`...watch?v=<id>...` and `youtu.be/<id>` — if the context preceding that
marker contains no earlier `v=` or `/` immediately followed by 11
identifier characters, then `extract_video_id` returns exactly that
identifier. -/
theorem C2_no_preempting_context_extracts_id (url : String)
    (pre idc post : List Char) (hlen : idc.length = 11)
    (hall : idc.all idChar = true)
    (hform : url.data = pre ++ 'v' :: '=' :: (idc ++ post) ∨
      url.data = pre ++ '/' :: (idc ++ post))
    (hnopre : ¬ preemptingOccBefore url.data pre.length) :
    extract_video_id url = some (String.mk idc) := by
  have htake : takeId 11 (idc ++ post) = some idc := by
    have h := takeId_append idc post hall
    rwa [hlen] at h
  have hnone : ∀ i, i < pre.length → match1At (url.data.drop i) = none := by
    intro i hi
    cases hm : match1At (url.data.drop i) with
    | none => rfl
    | some g => exact absurd ⟨i, hi, occAt_of_match1At_drop hm⟩ hnopre
  apply extract_of_searchP1
  rcases hform with hf | hf
  · refine searchP1_of_first_match pre.length url.data hnone ?_
    have hdrop : url.data.drop pre.length = 'v' :: '=' :: (idc ++ post) := by
      rw [hf, List.drop_left]
    rw [hdrop]
    exact htake
  · refine searchP1_of_first_match pre.length url.data hnone ?_
    have hdrop : url.data.drop pre.length = '/' :: (idc ++ post) := by
      rw [hf, List.drop_left]
    rw [hdrop]
    exact htake

/-- Witness for C2 (amended), at the spec's end-to-end scenarios A and B:
both marker shapes, with the real YouTube prefixes as contexts. -/
theorem C2_no_preempting_context_extracts_id_witness :
    extract_video_id "https://www.youtube.com/watch?v=dQw4w9WgXcQ"
      = some "dQw4w9WgXcQ" ∧
    extract_video_id "https://youtu.be/dQw4w9WgXcQ" = some "dQw4w9WgXcQ" :=
  ⟨C2_no_preempting_context_extracts_id
      "https://www.youtube.com/watch?v=dQw4w9WgXcQ"
      "https://www.youtube.com/watch?".data "dQw4w9WgXcQ".data []
      (by decide) (by decide) (Or.inl (by decide)) (by decide),
    C2_no_preempting_context_extracts_id "https://youtu.be/dQw4w9WgXcQ"
      "https://youtu.be".data "dQw4w9WgXcQ".data []
      (by decide) (by decide) (Or.inr (by decide)) (by decide)⟩

/-! ### Claims about transcript flattening -/

theorem joinWithSpaces_glue (a b : String) (l : List String) :
    joinWithSpaces ((a ++ " " ++ b) :: l) = a ++ " " ++ joinWithSpaces (b :: l) := by
  cases l with
  | nil => rfl
  | cons c cs => simp [joinWithSpaces, String.append_assoc]

theorem intercalate_go_spec (l : List String) (acc : String) :
    String.intercalate.go acc " " l = joinWithSpaces (acc :: l) := by
  induction l generalizing acc with
  | nil => rfl
  | cons a as ih =>
    show String.intercalate.go (acc ++ " " ++ a) " " as = joinWithSpaces (acc :: a :: as)
    rw [ih (acc ++ " " ++ a), joinWithSpaces_glue]
    rfl

theorem intercalate_space_eq_joinWithSpaces (l : List String) :
    String.intercalate " " l = joinWithSpaces l := by
  cases l with
  | nil => rfl
  | cons a as => exact intercalate_go_spec as a

/-- C7: a successful fetch flattens the ordered caption entries by
concatenating their text fields with a single separating space, in the
original order. -/
theorem C7_flatten_entries (api : String → Except String (List CaptionEntry))
    (videoId : String) (entries : List CaptionEntry)
    (h : api videoId = .ok entries) :
    get_transcript api videoId
      = .ok (joinWithSpaces (entries.map (fun e => e.text))) := by
  unfold get_transcript
  rw [h]
  show Except.ok (String.intercalate " " (entries.map (fun e => e.text)))
    = Except.ok (joinWithSpaces (entries.map (fun e => e.text)))
  rw [intercalate_space_eq_joinWithSpaces]

/-- Witness for C7, at the spec's scenario D. -/
theorem C7_flatten_entries_witness :
    get_transcript (fun _ => .ok [⟨"hello"⟩, ⟨"world"⟩]) "dQw4w9WgXcQ"
      = .ok "hello world" :=
  C7_flatten_entries (fun _ => .ok [⟨"hello"⟩, ⟨"world"⟩]) "dQw4w9WgXcQ"
    [⟨"hello"⟩, ⟨"world"⟩] rfl

/-- C10: an empty caption track flattens to the empty string, without any
error. -/
theorem C10_empty_track (api : String → Except String (List CaptionEntry))
    (videoId : String) (h : api videoId = .ok []) :
    get_transcript api videoId = .ok "" := by
  unfold get_transcript
  rw [h]
  rfl

/-- Witness for C10. -/
theorem C10_empty_track_witness :
    get_transcript (fun _ => .ok []) "dQw4w9WgXcQ" = .ok "" :=
  C10_empty_track (fun _ => .ok []) "dQw4w9WgXcQ" rfl

/-! ### Claims about graceful degradation -/

theorem correct_text_gpt_error (env : OpenAIEnv) (text e : String)
    (hkey : envKeyTruthy env = true ∨ env.apiKeyInSecrets = true)
    (hcall : env.chatCompletion (correctPrompt text) = .error e) :
    correct_text_gpt env text = (text, ["Error during text correction: " ++ e]) := by
  unfold correct_text_gpt
  have hcond : (!envKeyTruthy env && !env.apiKeyInSecrets) = false := by
    rcases hkey with h | h <;> simp [h]
  rw [hcond, if_neg (by simp), hcall]

theorem translate_text_error (dep : String → String → Except String String)
    (text code e : String) (hcall : dep text code = .error e) :
    translate_text dep text code = (text, ["Error during translation: " ++ e]) := by
  unfold translate_text
  rw [hcall]

/-- C1: if the correction (resp. translation) dependency raises, the stage
returns its input text unchanged and reports the error; neither stage has an
exception channel in its result type, so the exception never propagates. -/
theorem C1_stages_degrade_gracefully :
    (∀ (env : OpenAIEnv) (text e : String),
      (envKeyTruthy env = true ∨ env.apiKeyInSecrets = true) →
      env.chatCompletion (correctPrompt text) = .error e →
      correct_text_gpt env text = (text, ["Error during text correction: " ++ e])) ∧
    (∀ (dep : String → String → Except String String) (text code e : String),
      dep text code = .error e →
      translate_text dep text code = (text, ["Error during translation: " ++ e])) :=
  ⟨correct_text_gpt_error, translate_text_error⟩

/-- Witness for C1: both stages degrade on a concretely failing dependency. -/
theorem C1_stages_degrade_gracefully_witness :
    correct_text_gpt ⟨some "sk-key", false, fun _ => .error "rate limit"⟩ "hello"
      = ("hello", ["Error during text correction: rate limit"]) ∧
    translate_text (fun _ _ => .error "no credentials") "hello" "tr"
      = ("hello", ["Error during translation: no credentials"]) :=
  ⟨C1_stages_degrade_gracefully.1 ⟨some "sk-key", false, fun _ => .error "rate limit"⟩
      "hello" "rate limit" (Or.inl rfl) rfl,
    C1_stages_degrade_gracefully.2 (fun _ _ => .error "no credentials")
      "hello" "tr" "no credentials" rfl⟩

/-- C5: if the correction credential is absent from the environment and from
the secret store, `correct_text_gpt` returns the input unchanged and reports
the missing-key error instead of raising. -/
theorem C5_missing_key_degrades (env : OpenAIEnv) (text : String)
    (h1 : env.apiKeyEnv = none) (h2 : env.apiKeyInSecrets = false) :
    correct_text_gpt env text = (text, [keyMissingMsg]) := by
  unfold correct_text_gpt
  have ht : envKeyTruthy env = false := by
    unfold envKeyTruthy
    rw [h1]
  rw [ht, h2, if_pos (by simp)]

/-- Witness for C5. -/
theorem C5_missing_key_degrades_witness :
    correct_text_gpt ⟨none, false, fun _ => .ok "unused"⟩ "hello"
      = ("hello", [keyMissingMsg]) :=
  C5_missing_key_degrades ⟨none, false, fun _ => .ok "unused"⟩ "hello" rfl rfl

/-! ### Claim about the language map -/

/-- C6: the language-code lookup is total: the seven selectable names map to
their listed codes, and every other string falls back to `"en"`. -/
theorem C6_lang_map_total :
    lang_map_get "English" = "en" ∧ lang_map_get "Spanish" = "es" ∧
    lang_map_get "French" = "fr" ∧ lang_map_get "German" = "de" ∧
    lang_map_get "Italian" = "it" ∧ lang_map_get "Portuguese" = "pt" ∧
    lang_map_get "Turkish" = "tr" ∧
    ∀ name : String,
      name ∉ ["English", "Spanish", "French", "German", "Italian",
        "Portuguese", "Turkish"] →
      lang_map_get name = "en" := by
  refine ⟨rfl, rfl, rfl, rfl, rfl, rfl, rfl, ?_⟩
  intro name hname
  simp only [List.mem_cons, List.not_mem_nil, or_false, not_or] at hname
  obtain ⟨h1, h2, h3, h4, h5, h6, h7⟩ := hname
  unfold lang_map_get lang_map
  rw [if_neg h1, if_neg h2, if_neg h3, if_neg h4, if_neg h5, if_neg h6, if_neg h7]
  rfl

/-- Witness for C6: an unrecognized name falls back to `"en"`. -/
theorem C6_lang_map_total_witness : lang_map_get "Klingon" = "en" :=
  C6_lang_map_total.2.2.2.2.2.2.2 "Klingon" (by decide)


/-! ### Claims about the pipeline control flow -/

/-- C4: if the URL yields no video id, or the fetch raises, the run aborts
immediately — the whole output is a single error message, so no transcript
panel is rendered and no downstream stage's output appears. -/
theorem C4_abort_on_invalid_or_fetch_error (w : World)
    (hb : w.buttonPressed = true) (hu : w.url.isEmpty = false)
    (habort : extract_video_id w.url = none ∨
      ∃ vid e, extract_video_id w.url = some vid ∧ w.fetchDep vid = .error e) :
    main_events w = [UIEvent.errorMsg (abortMsg w)] := by
  rcases habort with h | ⟨vid, e, hv, hf⟩
  · simp [main_events, abortMsg, hb, hu, h]
  · simp [main_events, abortMsg, get_transcript, hb, hu, hv, hf]

/-- Witness for C4, at a URL with no identifier. -/
theorem C4_abort_on_invalid_or_fetch_error_witness :
    main_events
      ⟨true, "not a url", "Turkish", ⟨none, false, fun _ => .error "unused"⟩,
        fun _ _ => .error "unused", fun _ => .error "unused"⟩
      = [UIEvent.errorMsg "Invalid YouTube URL. Please check and try again."] :=
  C4_abort_on_invalid_or_fetch_error
    ⟨true, "not a url", "Turkish", ⟨none, false, fun _ => .error "unused"⟩,
      fun _ _ => .error "unused", fun _ => .error "unused"⟩
    rfl rfl (Or.inl rfl)

/-- C8: when the fetch succeeds but the correction dependency throws, the
run still renders the Corrected Transcript and Translated Text panels, and
the text handed to the translation stage is the original uncorrected
transcript. -/
theorem C8_translation_gets_original_on_correction_failure (w : World)
    (vid txt e : String)
    (hb : w.buttonPressed = true) (hu : w.url.isEmpty = false)
    (hv : extract_video_id w.url = some vid)
    (hf : get_transcript w.fetchDep vid = .ok txt)
    (hkey : envKeyTruthy w.openai = true ∨ w.openai.apiKeyInSecrets = true)
    (hthrow : w.openai.chatCompletion (correctPrompt txt) = .error e) :
    main_events w =
      UIEvent.panel "Original Transcript" txt
        :: UIEvent.errorMsg ("Error during text correction: " ++ e)
        :: UIEvent.panel "Corrected Transcript" txt
        :: ((translate_text w.translateDep txt (lang_map_get w.targetLanguage)).2.map
              UIEvent.errorMsg
          ++ [UIEvent.panel ("Translated Text (" ++ w.targetLanguage ++ ")")
              (translate_text w.translateDep txt (lang_map_get w.targetLanguage)).1]) := by
  have hcorr : correct_text_gpt w.openai txt
      = (txt, ["Error during text correction: " ++ e]) :=
    correct_text_gpt_error w.openai txt e hkey hthrow
  simp [main_events, hb, hu, hv, hf, hcorr]

/-- Witness for C8: with a failing correction dependency, translation runs
on the original transcript and its panel is rendered. -/
theorem C8_translation_gets_original_on_correction_failure_witness :
    main_events
      ⟨true, "https://youtu.be/dQw4w9WgXcQ", "Turkish",
        ⟨some "sk-key", false, fun _ => .error "rate limit"⟩,
        fun t _ => .ok ("TR:" ++ t),
        fun _ => .ok [⟨"hello"⟩, ⟨"world"⟩]⟩
      = [UIEvent.panel "Original Transcript" "hello world",
        UIEvent.errorMsg "Error during text correction: rate limit",
        UIEvent.panel "Corrected Transcript" "hello world",
        UIEvent.panel "Translated Text (Turkish)" "TR:hello world"] :=
  C8_translation_gets_original_on_correction_failure
    ⟨true, "https://youtu.be/dQw4w9WgXcQ", "Turkish",
      ⟨some "sk-key", false, fun _ => .error "rate limit"⟩,
      fun t _ => .ok ("TR:" ++ t),
      fun _ => .ok [⟨"hello"⟩, ⟨"world"⟩]⟩
    "dQw4w9WgXcQ" "hello world" "rate limit" rfl rfl rfl rfl (Or.inl rfl) rfl
